import Mathlib

/-!
Shallow embedding of the distributed-transaction coordination core of the
repository: the `TransactionCoordinatorCatalog`
(src/mongo/db/s/transaction_coordinator_catalog.cpp) and the
`AsyncWorkScheduler` (src/mongo/db/s/transaction_coordinator_futures_util.cpp),
together with proofs of the specification's claims about them.

Opaque C++ values (logical session ids, transaction numbers, coordinator
shared pointers, shard ids, response payloads) are embedded as natural-number
identities; `mongo::Status` is embedded as an inductive with an ok state and
an error code.  Mutexes are elided: every catalog and scheduler operation in
the source performs its reads and writes of the shared structures inside one
critical section, so each operation is embedded as one atomic state
transformer.  Blocking waits (condition variables) are embedded as explicit
`blocked` outcomes, and fatal invariant violations (`invariant(...)`) as
explicit terminal outcomes, since a fired invariant aborts the process and no
successor state is observable.
-/

namespace MongoTxn

/-- Error code carried by a failed `mongo::Status`; opaque numeric identity. -/
abbrev ErrorCode := Nat

/-- The numeric value of `ErrorCodes::CallbackCanceled` in the source tree. -/
def callbackCanceledCode : ErrorCode := 11601

/-- Embedding of `mongo::Status`: either OK or an error with a code. -/
inductive Status where
  | ok : Status
  | error : ErrorCode → Status
deriving DecidableEq

/-- Embedding of `Status::isOK()`. -/
def Status.isOK : Status → Bool
  | .ok => true
  | .error _ => false

/-- Embedding of `Status::code()`; `ErrorCodes::OK` is code 0. -/
def Status.code : Status → ErrorCode
  | .ok => 0
  | .error e => e

/-- Opaque identity of a `LogicalSessionId`. -/
abbrev LogicalSessionId := Nat

/-- Opaque identity of a `TxnNumber`. -/
abbrev TxnNumber := Nat

/-- Opaque identity of a `std::shared_ptr<TransactionCoordinator>`. -/
abbrev Coordinator := Nat

/-- The inner `TransactionCoordinatorMap`: transaction number to coordinator,
embedded as an association list with unique keys. -/
abbrev TxnMap := List (TxnNumber × Coordinator)

/-- The outer map of `_coordinatorsBySession`: session id to inner map,
embedded as an association list with unique keys. -/
abbrev SessionMap := List (LogicalSessionId × TxnMap)

/-- Association-list lookup, the embedding of `std::map::find`. -/
def assocFind {β : Type} (k : Nat) : List (Nat × β) → Option β
  | [] => none
  | (k', v) :: rest => if k' = k then some v else assocFind k rest

/-- Association-list keyed update, the embedding of `map[k] = v` on a map
where `k` may or may not already be present. -/
def assocSet {β : Type} (k : Nat) (v : β) : List (Nat × β) → List (Nat × β)
  | [] => [(k, v)]
  | (k', v') :: rest =>
      if k' = k then (k, v) :: rest else (k', v') :: assocSet k v rest

/-- Association-list key erasure, the embedding of `std::map::erase(iter)`. -/
def assocErase {β : Type} (k : Nat) : List (Nat × β) → List (Nat × β)
  | [] => []
  | (k', v') :: rest =>
      if k' = k then rest else (k', v') :: assocErase k rest

/-- State of a `TransactionCoordinatorCatalog`: the once-settable step-up
outcome `_stepUpCompletionStatus` and the nested map `_coordinatorsBySession`. -/
structure TransactionCoordinatorCatalog where
  stepUpCompletionStatus : Option Status
  coordinatorsBySession : SessionMap
deriving DecidableEq

/-- Outcome of `_waitForStepUpToComplete`: still waiting on the condition
variable, thrown step-up failure (`uassertStatusOK`), or proceed. -/
inductive GateOutcome where
  | blocked : GateOutcome
  | failed : Status → GateOutcome
  | proceed : GateOutcome
deriving DecidableEq

/-- Embedding of `TransactionCoordinatorCatalog::_waitForStepUpToComplete`:
waits until `_stepUpCompletionStatus` is engaged, then
`uassertStatusOK(*_stepUpCompletionStatus)`. -/
def waitForStepUpToComplete (c : TransactionCoordinatorCatalog) : GateOutcome :=
  match c.stepUpCompletionStatus with
  | none => .blocked
  | some s => if s.isOK then .proceed else .failed s

/-- Result of `TransactionCoordinatorCatalog::exitStepUp`: fatal invariant
violation if the status was already set, else the updated catalog. -/
inductive ExitStepUpResult where
  | invariantViolated : ExitStepUpResult
  | ok : TransactionCoordinatorCatalog → ExitStepUpResult
deriving DecidableEq

/-- Embedding of `TransactionCoordinatorCatalog::exitStepUp`:
`invariant(!_stepUpCompletionStatus)` then publish the status and notify all
waiters on `_stepUpCompleteCV`. -/
def TransactionCoordinatorCatalog.exitStepUp
    (c : TransactionCoordinatorCatalog) (status : Status) : ExitStepUpResult :=
  match c.stepUpCompletionStatus with
  | some _ => .invariantViolated
  | none => .ok { c with stepUpCompletionStatus := some status }

/-- Result of a gated read (`get` / `getLatestOnSession`): blocked on
step-up, failed with the step-up status, fatal invariant violation, or a
value. -/
inductive GatedResult (α : Type) where
  | blocked : GatedResult α
  | failed : Status → GatedResult α
  | invariantViolated : GatedResult α
  | done : α → GatedResult α
deriving DecidableEq

/-- Embedding of `TransactionCoordinatorCatalog::get`: gate on step-up, then
a two-level `find` on the nested map, returning the null pointer (here
`none`) when either level misses. -/
def TransactionCoordinatorCatalog.get (c : TransactionCoordinatorCatalog)
    (lsid : LogicalSessionId) (txnNumber : TxnNumber) :
    GatedResult (Option Coordinator) :=
  match waitForStepUpToComplete c with
  | .blocked => .blocked
  | .failed s => .failed s
  | .proceed =>
      match assocFind lsid c.coordinatorsBySession with
      | none => .done none
      | some coordinatorsForSession =>
          .done (assocFind txnNumber coordinatorsForSession)

/-- Modelled from the spec: the iteration order of the inner
`TransactionCoordinatorMap`, whose comparator is declared in
`transaction_coordinator_catalog.h` (a header that is not among the provided
sources), so `begin()` of a non-empty inner map is here defined per the
specification's documented ordering policy for "latest": the entry whose
transaction number is the maximum among the registered ones. -/
def txnMapBegin : TxnMap → Option (TxnNumber × Coordinator)
  | [] => none
  | e :: rest =>
      match txnMapBegin rest with
      | none => some e
      | some b => if b.1 > e.1 then some b else some e

/-- Embedding of `TransactionCoordinatorCatalog::getLatestOnSession`: gate on
step-up; absent session gives `boost::none`; a present session must have a
non-empty inner map (`invariant(!coordinatorsForSession.empty())`), and the
`begin()` entry is returned. -/
def TransactionCoordinatorCatalog.getLatestOnSession
    (c : TransactionCoordinatorCatalog) (lsid : LogicalSessionId) :
    GatedResult (Option (TxnNumber × Coordinator)) :=
  match waitForStepUpToComplete c with
  | .blocked => .blocked
  | .failed s => .failed s
  | .proceed =>
      match assocFind lsid c.coordinatorsBySession with
      | none => .done none
      | some coordinatorsForSession =>
          if coordinatorsForSession.isEmpty then .invariantViolated
          else .done (txnMapBegin coordinatorsForSession)

/-- Result of `TransactionCoordinatorCatalog::insert`: blocked on step-up,
failed with the step-up status, fatal invariant violation on a duplicate
(session id, transaction number) key, or the updated catalog. -/
inductive InsertResult where
  | blocked : InsertResult
  | failed : Status → InsertResult
  | invariantViolated : InsertResult
  | ok : TransactionCoordinatorCatalog → InsertResult
deriving DecidableEq

/-- Embedding of `TransactionCoordinatorCatalog::insert`: when `forStepUp`
is false, gate on step-up; `_coordinatorsBySession[lsid]` default-constructs
an empty inner map for an absent session; a pre-existing entry for
`txnNumber` fires the duplicate-key invariant (fatal, so no successor state);
otherwise the coordinator is stored under the composite key.  The completion
continuation that later runs `_remove` is registered outside the lock and is
embedded separately as `remove`. -/
def TransactionCoordinatorCatalog.insert (c : TransactionCoordinatorCatalog)
    (lsid : LogicalSessionId) (txnNumber : TxnNumber)
    (coordinator : Coordinator) (forStepUp : Bool) : InsertResult :=
  match if forStepUp then GateOutcome.proceed else waitForStepUpToComplete c with
  | .blocked => .blocked
  | .failed s => .failed s
  | .proceed =>
      let coordinatorsForSession := (assocFind lsid c.coordinatorsBySession).getD []
      if (assocFind txnNumber coordinatorsForSession).isSome then
        .invariantViolated
      else
        let outer := assocSet lsid
          (assocSet txnNumber coordinator coordinatorsForSession) c.coordinatorsBySession
        .ok { c with coordinatorsBySession := outer }

/-- Embedding of `TransactionCoordinatorCatalog::_remove`: erase the inner
entry if both levels are found, and when that empties the inner map, erase
the outer session entry in the same critical section. -/
def TransactionCoordinatorCatalog.remove (c : TransactionCoordinatorCatalog)
    (lsid : LogicalSessionId) (txnNumber : TxnNumber) :
    TransactionCoordinatorCatalog :=
  match assocFind lsid c.coordinatorsBySession with
  | none => c
  | some coordinatorsForSession =>
      if (assocFind txnNumber coordinatorsForSession).isSome then
        let coordinatorsForSession' := assocErase txnNumber coordinatorsForSession
        if coordinatorsForSession'.isEmpty then
          { c with coordinatorsBySession := assocErase lsid c.coordinatorsBySession }
        else
          let outer := assocSet lsid coordinatorsForSession' c.coordinatorsBySession
          { c with coordinatorsBySession := outer }
      else c

/-- Embedding of `TransactionCoordinatorCatalog::onStepDown`: snapshot every
registered coordinator while holding the lock, then (after unlocking) invoke
`cancelIfCommitNotYetStarted` on each.  Returns the cancellation snapshot;
the catalog itself is not mutated. -/
def TransactionCoordinatorCatalog.onStepDown
    (c : TransactionCoordinatorCatalog) : List Coordinator :=
  c.coordinatorsBySession.flatMap (fun p => p.2.map (fun q => q.2))

/-- Embedding of the wait predicate of `TransactionCoordinatorCatalog::join`:
the condition-variable loop returns exactly when `_coordinatorsBySession` is
empty (the periodic five-second logging does not affect the predicate). -/
def TransactionCoordinatorCatalog.joinDone
    (c : TransactionCoordinatorCatalog) : Bool :=
  c.coordinatorsBySession.isEmpty

/-- Embedding of the destructor of `TransactionCoordinatorCatalog`: its whole
body is a call to `join()`, so destruction can complete exactly when the
join wait predicate holds. -/
def TransactionCoordinatorCatalog.destructorDone
    (c : TransactionCoordinatorCatalog) : Bool :=
  c.joinDone

/-- The catalog invariant from the data model: no session id is present in
the outer map with an empty inner map. -/
def noEmptyInner (m : SessionMap) : Bool :=
  m.all (fun p => !p.2.isEmpty)

/-- Opaque identity of a `ShardId`. -/
abbrev ShardId := Nat

/-- Embedding of `serverGlobalParams.clusterRole`. -/
inductive ClusterRole where
  | noRole : ClusterRole
  | shardServer : ClusterRole
  | configServer : ClusterRole
deriving DecidableEq

/-- Opaque identity of `ShardRegistry::kConfigServerShardId`, the
config-server sentinel shard id. -/
def kConfigServerShardId : ShardId := 0

/-- Embedding of `txn::getLocalShardId`: the config-server sentinel when the
cluster role is config server, the shard id registered in `ShardingState`
when it is shard server, and `MONGO_UNREACHABLE` (no value) otherwise. -/
def getLocalShardId (role : ClusterRole) (registeredShardId : ShardId) :
    Option ShardId :=
  match role with
  | .configServer => some kConfigServerShardId
  | .shardServer => some registeredShardId
  | .noRole => none

/-- The dispatch decision taken at the top of
`AsyncWorkScheduler::scheduleRemoteCommand`. -/
inductive DispatchPath where
  | unreachableFatal : DispatchPath
  | loopback : DispatchPath
  | targeted : ShardId → DispatchPath
deriving DecidableEq

/-- Embedding of the branch structure of
`AsyncWorkScheduler::scheduleRemoteCommand`: compute
`shardId == getLocalShardId(_serviceContext)` first; when equal, dispatch
through the in-process loopback (`scheduleWork` running the command against
the service entry point), otherwise start `_targetHostAsync(shardId, ...)`
(the targeter lookup via `findHostWithMaxWait`) before issuing the command
on the network executor. -/
def scheduleRemoteCommandPath (role : ClusterRole)
    (registeredShardId : ShardId) (shardId : ShardId) : DispatchPath :=
  match getLocalShardId role registeredShardId with
  | none => .unreachableFatal
  | some localShardId =>
      if shardId = localShardId then .loopback else .targeted shardId

/-- Resolution of the future returned for one remote command: the promise is
either fulfilled with the response or set to an error. -/
inductive CommandOutcome where
  | value : Nat → CommandOutcome
  | error : Status → CommandOutcome
deriving DecidableEq

/-- Embedding of the remote-command completion callback inside
`AsyncWorkScheduler::scheduleRemoteCommand`: an OK transport status fulfils
the promise with the response; a `CallbackCanceled` transport status is
replaced (under the node's lock) by `_shutdownStatus` when one is recorded;
any other transport error is reported unchanged.  The
`shard->updateReplSetMonitor` host-health feedback calls are effects on an
external collaborator and are not part of the resolved value. -/
def remoteCallbackResolve (transportStatus : Status) (response : Nat)
    (shutdownStatus : Status) : CommandOutcome :=
  if transportStatus.isOK then .value response
  else
    .error
      (if transportStatus = Status.error callbackCanceledCode then
        (if shutdownStatus.isOK then transportStatus else shutdownStatus)
      else transportStatus)

/-- An active operation context tracked in `_activeOpContexts`, with the kill
state that `ServiceContext::killOperation` sets on it. -/
structure OpCtx where
  ctxId : Nat
  killedWith : Option ErrorCode
deriving DecidableEq

/-- An in-flight remote-command handle tracked in `_activeHandles`, with the
flag that `TaskExecutor::cancel` sets on it. -/
structure CmdHandle where
  handleId : Nat
  cancelled : Bool
deriving DecidableEq

/-- A node of the hierarchical `AsyncWorkScheduler`: its monotonic
`_shutdownStatus`, its `_activeOpContexts`, its `_activeHandles`, and its
owned `_childSchedulers`.  The non-owning parent back-reference only drives
unlinking on destruction and is not part of the node's own state. -/
inductive AsyncWorkScheduler where
  | mk : Status → List OpCtx → List CmdHandle → List AsyncWorkScheduler →
      AsyncWorkScheduler

/-- Projection: `_shutdownStatus`. -/
def AsyncWorkScheduler.shutdownStatus : AsyncWorkScheduler → Status
  | .mk s _ _ _ => s

/-- Projection: `_activeOpContexts`. -/
def AsyncWorkScheduler.activeOpContexts : AsyncWorkScheduler → List OpCtx
  | .mk _ ops _ _ => ops

/-- Projection: `_activeHandles`. -/
def AsyncWorkScheduler.activeHandles : AsyncWorkScheduler → List CmdHandle
  | .mk _ _ hs _ => hs

/-- Projection: `_childSchedulers`. -/
def AsyncWorkScheduler.childSchedulers :
    AsyncWorkScheduler → List AsyncWorkScheduler
  | .mk _ _ _ cs => cs

/-- Embedding of `ServiceContext::killOperation` on one tracked context:
records the kill code taken from `_shutdownStatus.code()`. -/
def killOperation (code : ErrorCode) (o : OpCtx) : OpCtx :=
  { o with killedWith := some code }

/-- Embedding of `TaskExecutor::cancel` on one tracked handle. -/
def cancelHandle (h : CmdHandle) : CmdHandle :=
  { h with cancelled := true }

/-- Embedding of the body of `AsyncWorkScheduler::shutdown` past its entry
invariant: return unchanged when `_shutdownStatus` is already non-OK;
otherwise record the reason, kill every active operation context with the
reason's code, cancel every in-flight handle, and recursively shut down
every child with the same reason. -/
def AsyncWorkScheduler.shutdownRec (status : Status) :
    AsyncWorkScheduler → AsyncWorkScheduler
  | .mk sh ops hs cs =>
      if sh.isOK then
        .mk status (ops.map (killOperation status.code)) (hs.map cancelHandle)
          (cs.attach.map (fun c => AsyncWorkScheduler.shutdownRec status c.1))
      else .mk sh ops hs cs
decreasing_by
  simp_wf
  have hlt := List.sizeOf_lt_of_mem c.2
  omega

/-- Embedding of `AsyncWorkScheduler::shutdown` including its entry
`invariant(!status.isOK())`: calling it with an OK status is a fatal
invariant violation (no successor state). -/
def AsyncWorkScheduler.shutdown (s : AsyncWorkScheduler) (status : Status) :
    Option AsyncWorkScheduler :=
  if status.isOK then none else some (s.shutdownRec status)

/-- Embedding of `AsyncWorkScheduler::_quiesced` (also the wait predicate of
`AsyncWorkScheduler::join`): all three bookkeeping collections empty. -/
def AsyncWorkScheduler.quiesced (s : AsyncWorkScheduler) : Bool :=
  s.activeOpContexts.isEmpty && s.activeHandles.isEmpty &&
    s.childSchedulers.isEmpty

/-- Embedding of the continuation of the non-local path of
`AsyncWorkScheduler::scheduleRemoteCommand` that runs after
`_targetHostAsync` resolves: under the node's lock,
`uassertStatusOK(_shutdownStatus)` fails the returned future with the
recorded shutdown reason before any executor submission; otherwise the
command is submitted to the network executor and the new handle is emplaced
at the front of `_activeHandles`. -/
def postTargetingStep (s : AsyncWorkScheduler) (newHandle : CmdHandle) :
    Except Status AsyncWorkScheduler :=
  if s.shutdownStatus.isOK then
    .ok (.mk s.shutdownStatus s.activeOpContexts
      (newHandle :: s.activeHandles) s.childSchedulers)
  else .error s.shutdownStatus

/-! ## Helper lemmas about the association-list map operations -/

theorem assocFind_assocSet_self {β : Type} (k : Nat) (v : β)
    (m : List (Nat × β)) : assocFind k (assocSet k v m) = some v := by
  induction m with
  | nil => simp [assocSet, assocFind]
  | cons e rest ih =>
      obtain ⟨k', v'⟩ := e
      by_cases hk : k' = k
      · simp [assocSet, assocFind, hk]
      · simp [assocSet, assocFind, hk, ih]

theorem assocFind_assocSet_ne {β : Type} (k k' : Nat) (v : β)
    (m : List (Nat × β)) (hne : k' ≠ k) :
    assocFind k' (assocSet k v m) = assocFind k' m := by
  induction m with
  | nil => simp [assocSet, assocFind, Ne.symm hne]
  | cons e rest ih =>
      obtain ⟨k₀, v₀⟩ := e
      by_cases hk : k₀ = k
      · subst hk
        simp [assocSet, assocFind, Ne.symm hne]
      · simp [assocSet, assocFind, hk, ih]

theorem assocSet_ne_nil {β : Type} (k : Nat) (v : β) (m : List (Nat × β)) :
    assocSet k v m ≠ [] := by
  cases m with
  | nil => simp [assocSet]
  | cons e rest =>
      obtain ⟨k', v'⟩ := e
      by_cases hk : k' = k <;> simp [assocSet, hk]

theorem mem_assocSet {β : Type} (k : Nat) (v : β) (m : List (Nat × β))
    (p : Nat × β) (hp : p ∈ assocSet k v m) : p = (k, v) ∨ p ∈ m := by
  induction m with
  | nil => simpa [assocSet] using hp
  | cons e rest ih =>
      obtain ⟨k', v'⟩ := e
      by_cases hk : k' = k
      · subst hk
        simp only [assocSet, if_true, eq_self_iff_true, List.mem_cons] at hp
        exact hp.imp id (List.mem_cons_of_mem _)
      · simp only [assocSet, if_neg hk, List.mem_cons] at hp
        rcases hp with h | h
        · exact .inr (by simp [h])
        · rcases ih h with h' | h'
          · exact .inl h'
          · exact .inr (List.mem_cons_of_mem _ h')

theorem mem_assocErase {β : Type} (k : Nat) (m : List (Nat × β))
    (p : Nat × β) (hp : p ∈ assocErase k m) : p ∈ m := by
  induction m with
  | nil => simp [assocErase] at hp
  | cons e rest ih =>
      obtain ⟨k', v'⟩ := e
      by_cases hk : k' = k
      · simp only [assocErase, if_pos hk] at hp
        exact List.mem_cons_of_mem _ hp
      · simp only [assocErase, if_neg hk, List.mem_cons] at hp
        rcases hp with h | h
        · exact by simp [h]
        · exact List.mem_cons_of_mem _ (ih h)

theorem noEmptyInner_iff (m : SessionMap) :
    noEmptyInner m = true ↔ ∀ p ∈ m, p.2 ≠ [] := by
  simp [noEmptyInner, List.all_eq_true, List.isEmpty_iff]

theorem noEmptyInner_assocSet (k : Nat) (v : TxnMap) (m : SessionMap)
    (hm : noEmptyInner m = true) (hv : v ≠ []) :
    noEmptyInner (assocSet k v m) = true := by
  rw [noEmptyInner_iff] at hm ⊢
  intro p hp
  rcases mem_assocSet k v m p hp with h | h
  · subst h; exact hv
  · exact hm p h

theorem noEmptyInner_assocErase (k : Nat) (m : SessionMap)
    (hm : noEmptyInner m = true) :
    noEmptyInner (assocErase k m) = true := by
  rw [noEmptyInner_iff] at hm ⊢
  exact fun p hp => hm p (mem_assocErase k m p hp)

theorem isEmpty_iff_all_assocFind_none {β : Type} (m : List (Nat × β)) :
    m.isEmpty = true ↔ ∀ k, assocFind k m = none := by
  cases m with
  | nil => simp [assocFind]
  | cons e rest =>
      obtain ⟨k', v'⟩ := e
      simp only [List.isEmpty_cons]
      constructor
      · intro h; simp at h
      · intro h
        have hk := h k'
        simp [assocFind] at hk

theorem txnMapBegin_eq_none (m : TxnMap) :
    txnMapBegin m = none ↔ m = [] := by
  cases m with
  | nil => simp [txnMapBegin]
  | cons e rest =>
      simp only [txnMapBegin]
      cases txnMapBegin rest with
      | none => simp
      | some b => by_cases hgt : e.1 < b.1 <;> simp [hgt]

theorem txnMapBegin_max (m : TxnMap) (hne : m ≠ []) :
    ∃ t co, txnMapBegin m = some (t, co) ∧ (t, co) ∈ m ∧ ∀ p ∈ m, p.1 ≤ t := by
  induction m with
  | nil => exact absurd rfl hne
  | cons e rest ih =>
      obtain ⟨t₀, co₀⟩ := e
      cases hb : txnMapBegin rest with
      | none =>
          have hrest : rest = [] := (txnMapBegin_eq_none rest).mp hb
          subst hrest
          refine ⟨t₀, co₀, ?_, ?_, ?_⟩
          · simp [txnMapBegin]
          · simp
          · simp
      | some b =>
          have hrne : rest ≠ [] := by
            intro h
            rw [h] at hb
            simp [txnMapBegin] at hb
          obtain ⟨t, co, hb', hmem, hmax⟩ := ih hrne
          rw [hb'] at hb
          injection hb with hbb
          subst hbb
          by_cases hgt : t₀ < t
          · refine ⟨t, co, ?_, List.mem_cons_of_mem _ hmem, ?_⟩
            · simp [txnMapBegin, hb', hgt]
            · intro p hp
              rcases List.mem_cons.mp hp with h | h
              · subst h; exact Nat.le_of_lt hgt
              · exact hmax p h
          · refine ⟨t₀, co₀, ?_, List.mem_cons_self _ _, ?_⟩
            · simp [txnMapBegin, hb', hgt]
            · intro p hp
              rcases List.mem_cons.mp hp with h | h
              · subst h; exact Nat.le_refl _
              · exact Nat.le_trans (hmax p h) (Nat.le_of_not_lt hgt)

theorem waitForStepUp_proceed_iff (c : TransactionCoordinatorCatalog) :
    waitForStepUpToComplete c = .proceed ↔
      c.stepUpCompletionStatus = some Status.ok := by
  unfold waitForStepUpToComplete
  cases c.stepUpCompletionStatus with
  | none => simp
  | some s => cases s <;> simp [Status.isOK]

theorem insert_ok_elim (c c' : TransactionCoordinatorCatalog)
    (lsid : LogicalSessionId) (txnNumber : TxnNumber)
    (coordinator : Coordinator) (forStepUp : Bool)
    (hins : c.insert lsid txnNumber coordinator forStepUp = .ok c') :
    assocFind txnNumber ((assocFind lsid c.coordinatorsBySession).getD []) =
      none ∧
    c' = TransactionCoordinatorCatalog.mk c.stepUpCompletionStatus
          (assocSet lsid
            (assocSet txnNumber coordinator
              ((assocFind lsid c.coordinatorsBySession).getD []))
            c.coordinatorsBySession) := by
  unfold TransactionCoordinatorCatalog.insert at hins
  cases hg : (if forStepUp then GateOutcome.proceed
      else waitForStepUpToComplete c) with
  | blocked => rw [hg] at hins; simp at hins
  | failed s => rw [hg] at hins; simp at hins
  | proceed =>
      rw [hg] at hins
      by_cases hdup : (assocFind txnNumber
          ((assocFind lsid c.coordinatorsBySession).getD [])).isSome
      · simp [hdup] at hins
      · simp only [hdup, if_false, Bool.false_eq_true] at hins
        simp only [InsertResult.ok.injEq] at hins
        exact ⟨Option.not_isSome_iff_eq_none.mp hdup, hins.symm⟩

/-! ## Claim theorems about the catalog -/

/-- C1: for a session present in the catalog (whose inner map is non-empty,
as the catalog invariant guarantees), `getLatestOnSession` returns the
registered (transaction number, coordinator) pair whose transaction number
is the maximum over the session's registered transaction numbers, and it
returns the empty result exactly when the session is absent. -/
theorem getLatestOnSession_returns_max (c : TransactionCoordinatorCatalog)
    (lsid : LogicalSessionId)
    (hstep : c.stepUpCompletionStatus = some Status.ok) :
    (assocFind lsid c.coordinatorsBySession = none →
      c.getLatestOnSession lsid = .done none) ∧
    (∀ inner, assocFind lsid c.coordinatorsBySession = some inner →
      inner ≠ [] →
      ∃ t co, c.getLatestOnSession lsid = .done (some (t, co)) ∧
        (t, co) ∈ inner ∧ ∀ p ∈ inner, p.1 ≤ t) := by
  constructor
  · intro habs
    simp [TransactionCoordinatorCatalog.getLatestOnSession,
      waitForStepUpToComplete, hstep, Status.isOK, habs]
  · intro inner hfind hne
    obtain ⟨t, co, hb, hmem, hmax⟩ := txnMapBegin_max inner hne
    refine ⟨t, co, ?_, hmem, hmax⟩
    simp [TransactionCoordinatorCatalog.getLatestOnSession,
      waitForStepUpToComplete, hstep, Status.isOK, hfind,
      List.isEmpty_iff, hne, hb]

/-- Witness for C1 at a concrete catalog with one session holding
transaction numbers 5 and 9: the latest pair is (9, 21), and a missing
session yields the empty result. -/
theorem getLatestOnSession_returns_max_witness :
    (TransactionCoordinatorCatalog.mk (some Status.ok)
        [(1, [(5, 20), (9, 21)])]).getLatestOnSession 1 =
      .done (some (9, 21)) := by
  obtain ⟨t, co, hdone, hmem, hmax⟩ :=
    (getLatestOnSession_returns_max
        (TransactionCoordinatorCatalog.mk (some Status.ok)
          [(1, [(5, 20), (9, 21)])]) 1 rfl).2
      [(5, 20), (9, 21)] (by simp [assocFind]) (by simp)
  have h9 : (9 : Nat) ≤ t := by simpa using hmax (9, 21) (by simp)
  rcases List.mem_cons.mp hmem with h | h
  · rw [Prod.mk.injEq] at h
    obtain ⟨h1, h2⟩ := h
    subst h1
    exact absurd h9 (by decide)
  · have h2 : t = 9 ∧ co = 21 := by simpa using h
    obtain ⟨h2a, h2b⟩ := h2
    subst h2a
    subst h2b
    exact hdone

/-- C2: after a successful `insert(s, t, c)` (step-up resolved OK and the
key not already present), `get(s, t)` returns the inserted coordinator, and
`get(s, t')` for any other transaction number with no registered coordinator
returns the empty result. -/
theorem insert_then_get (c c' : TransactionCoordinatorCatalog)
    (lsid : LogicalSessionId) (txnNumber : TxnNumber)
    (coordinator : Coordinator)
    (hstep : c.stepUpCompletionStatus = some Status.ok)
    (hins : c.insert lsid txnNumber coordinator false = .ok c') :
    c'.get lsid txnNumber = .done (some coordinator) ∧
    ∀ t', t' ≠ txnNumber →
      assocFind t' ((assocFind lsid c.coordinatorsBySession).getD []) = none →
      c'.get lsid t' = .done none := by
  obtain ⟨hfresh, hc'⟩ := insert_ok_elim c c' lsid txnNumber coordinator false hins
  subst hc'
  constructor
  · simp [TransactionCoordinatorCatalog.get, waitForStepUpToComplete, hstep,
      Status.isOK, assocFind_assocSet_self]
  · intro t' hne hnone
    simp [TransactionCoordinatorCatalog.get, waitForStepUpToComplete, hstep,
      Status.isOK, assocFind_assocSet_self,
      assocFind_assocSet_ne txnNumber t' coordinator _ hne, hnone]

/-- Witness for C2: inserting coordinator 7 under session 1, transaction 4
into the empty catalog makes `get 1 4` return it and leaves `get 1 3`
empty. -/
theorem insert_then_get_witness :
    (TransactionCoordinatorCatalog.mk (some Status.ok) [(1, [(4, 7)])]).get 1 4 =
        .done (some 7) ∧
    (TransactionCoordinatorCatalog.mk (some Status.ok) [(1, [(4, 7)])]).get 1 3 =
        .done none := by
  have h := insert_then_get (TransactionCoordinatorCatalog.mk (some Status.ok) [])
    (TransactionCoordinatorCatalog.mk (some Status.ok) [(1, [(4, 7)])])
    1 4 7 rfl (by decide)
  exact ⟨h.1, h.2 3 (by decide) (by decide)⟩

/-- C3: an `insert` for a (session id, transaction number) key that already
holds a coordinator fires the duplicate-key invariant — a fatal contract
violation with no recoverable error value and no replacement of the existing
entry (the violated run produces no successor catalog at all). -/
theorem insert_duplicate_fatal (c : TransactionCoordinatorCatalog)
    (lsid : LogicalSessionId) (txnNumber : TxnNumber)
    (co co' : Coordinator) (inner : TxnMap) (forStepUp : Bool)
    (hgate : forStepUp = true ∨ c.stepUpCompletionStatus = some Status.ok)
    (hsess : assocFind lsid c.coordinatorsBySession = some inner)
    (hdup : assocFind txnNumber inner = some co) :
    c.insert lsid txnNumber co' forStepUp = .invariantViolated := by
  have hgate' : (if forStepUp then GateOutcome.proceed
      else waitForStepUpToComplete c) = .proceed := by
    rcases hgate with h | h
    · simp [h]
    · cases forStepUp <;> simp [waitForStepUpToComplete, h, Status.isOK]
  unfold TransactionCoordinatorCatalog.insert
  rw [hgate']
  simp [hsess, hdup]

/-- Witness for C3: with coordinator 7 already under (1, 4), inserting
coordinator 8 under the same key is the fatal invariant violation. -/
theorem insert_duplicate_fatal_witness :
    (TransactionCoordinatorCatalog.mk (some Status.ok) [(1, [(4, 7)])]).insert
        1 4 8 false = .invariantViolated :=
  insert_duplicate_fatal
    (TransactionCoordinatorCatalog.mk (some Status.ok) [(1, [(4, 7)])])
    1 4 7 8 [(4, 7)] false (.inr rfl) (by decide) (by decide)

/-- C4: the catalog operations preserve the invariant that no session id is
present with an empty inner map: a successful `insert` stores a non-empty
inner map, `_remove` erases the outer session entry in the same step that
empties the inner one, and `exitStepUp` leaves the mapping untouched
(`get`, `getLatestOnSession` and `onStepDown` do not mutate the mapping at
all in the embedding, so there is nothing further to preserve). -/
theorem no_empty_inner_preserved (c : TransactionCoordinatorCatalog)
    (h : noEmptyInner c.coordinatorsBySession = true) :
    (∀ lsid txnNumber coordinator forStepUp c',
        c.insert lsid txnNumber coordinator forStepUp = .ok c' →
        noEmptyInner c'.coordinatorsBySession = true) ∧
    (∀ lsid txnNumber,
        noEmptyInner ((c.remove lsid txnNumber).coordinatorsBySession) = true) ∧
    (∀ status c', c.exitStepUp status = .ok c' →
        noEmptyInner c'.coordinatorsBySession = true) := by
  refine ⟨?_, ?_, ?_⟩
  · intro lsid txnNumber coordinator forStepUp c' hins
    obtain ⟨hfresh, hc'⟩ :=
      insert_ok_elim c c' lsid txnNumber coordinator forStepUp hins
    subst hc'
    exact noEmptyInner_assocSet _ _ _ h (assocSet_ne_nil _ _ _)
  · intro lsid txnNumber
    unfold TransactionCoordinatorCatalog.remove
    cases hsess : assocFind lsid c.coordinatorsBySession with
    | none => exact h
    | some inner =>
        by_cases hmem : (assocFind txnNumber inner).isSome
        · by_cases hemp : (assocErase txnNumber inner).isEmpty
          · simp only [hmem, if_true, hemp]
            exact noEmptyInner_assocErase _ _ h
          · simp only [hmem, if_true, hemp, if_false, Bool.false_eq_true]
            exact noEmptyInner_assocSet _ _ _ h
              (by simpa [List.isEmpty_iff] using hemp)
        · simp only [hmem, if_false, Bool.false_eq_true]
          exact h
  · intro status c' hex
    unfold TransactionCoordinatorCatalog.exitStepUp at hex
    cases hsu : c.stepUpCompletionStatus with
    | some s => rw [hsu] at hex; simp at hex
    | none =>
        rw [hsu] at hex
        simp only [ExitStepUpResult.ok.injEq] at hex
        rw [← hex]
        exact h

/-- Witness for C4: removing (1, 4) from a catalog whose session 1 holds
only transaction 4 erases the session entry itself, keeping the
no-empty-inner-map invariant. -/
theorem no_empty_inner_preserved_witness :
    noEmptyInner
      (((TransactionCoordinatorCatalog.mk (some Status.ok)
          [(1, [(4, 7)])]).remove 1 4).coordinatorsBySession) = true :=
  (no_empty_inner_preserved
    (TransactionCoordinatorCatalog.mk (some Status.ok) [(1, [(4, 7)])])
    (by decide)).2.1 1 4

/-- C5: before `exitStepUp` is called (step-up status unset), `insert` with
`forStepUp` false, `get` and `getLatestOnSession` all block; after
`exitStepUp` publishes a failure, every such call — one that was blocked and
re-evaluates, or one issued later, which are the same evaluation on the
updated catalog — fails with exactly that failure status, without reading or
mutating the mapping. -/
theorem stepUp_gating (c c' : TransactionCoordinatorCatalog)
    (lsid : LogicalSessionId) (txnNumber : TxnNumber)
    (coordinator : Coordinator) (e : ErrorCode)
    (hnone : c.stepUpCompletionStatus = none)
    (hexit : c.exitStepUp (Status.error e) = .ok c') :
    (c.insert lsid txnNumber coordinator false = .blocked ∧
     c.get lsid txnNumber = .blocked ∧
     c.getLatestOnSession lsid = .blocked) ∧
    (c'.insert lsid txnNumber coordinator false = .failed (Status.error e) ∧
     c'.get lsid txnNumber = .failed (Status.error e) ∧
     c'.getLatestOnSession lsid = .failed (Status.error e)) := by
  have hc' : c' = TransactionCoordinatorCatalog.mk (some (Status.error e))
      c.coordinatorsBySession := by
    unfold TransactionCoordinatorCatalog.exitStepUp at hexit
    rw [hnone] at hexit
    simp only [ExitStepUpResult.ok.injEq] at hexit
    exact hexit.symm
  subst hc'
  refine ⟨⟨?_, ?_, ?_⟩, ⟨?_, ?_, ?_⟩⟩ <;>
    simp [TransactionCoordinatorCatalog.insert,
      TransactionCoordinatorCatalog.get,
      TransactionCoordinatorCatalog.getLatestOnSession,
      waitForStepUpToComplete, hnone, Status.isOK]

/-- Witness for C5: on the empty catalog with step-up unresolved, `get`
blocks; after `exitStepUp` publishes error 7, `get` fails with error 7. -/
theorem stepUp_gating_witness :
    (TransactionCoordinatorCatalog.mk none []).get 0 0 = .blocked ∧
    (TransactionCoordinatorCatalog.mk (some (Status.error 7)) []).get 0 0 =
      .failed (Status.error 7) := by
  have h := stepUp_gating (TransactionCoordinatorCatalog.mk none [])
    (TransactionCoordinatorCatalog.mk (some (Status.error 7)) [])
    0 0 0 7 rfl (by decide)
  exact ⟨h.1.2.1, h.2.2.1⟩

/-- C9: the catalog destructor invokes `join()`, whose wait predicate holds
exactly when the catalog is globally empty, so at the moment destruction can
proceed no session holds any registered coordinator. -/
theorem destructor_joins_until_empty (c : TransactionCoordinatorCatalog) :
    c.destructorDone = c.joinDone ∧
    (c.destructorDone = true ↔
      ∀ lsid, assocFind lsid c.coordinatorsBySession = none) := by
  refine ⟨rfl, ?_⟩
  unfold TransactionCoordinatorCatalog.destructorDone
    TransactionCoordinatorCatalog.joinDone
  exact isEmpty_iff_all_assocFind_none _

/-! ## Helper lemmas about the scheduler -/

theorem Status.isOK_ok : Status.ok.isOK = true := rfl

theorem Status.isOK_error (e : ErrorCode) : (Status.error e).isOK = false := rfl

theorem shutdownRec_mk (status sh : Status) (ops : List OpCtx)
    (hs : List CmdHandle) (cs : List AsyncWorkScheduler) :
    (AsyncWorkScheduler.mk sh ops hs cs).shutdownRec status =
      if sh.isOK then
        AsyncWorkScheduler.mk status (ops.map (killOperation status.code))
          (hs.map cancelHandle) (cs.map (fun c => c.shutdownRec status))
      else AsyncWorkScheduler.mk sh ops hs cs := by
  rw [AsyncWorkScheduler.shutdownRec]
  simp only [List.attach_map_val]

theorem shutdownRec_status_not_ok (reason : Status) (s : AsyncWorkScheduler)
    (hr : reason.isOK = false) :
    ((s.shutdownRec reason).shutdownStatus).isOK = false := by
  cases s with
  | mk sh ops hs cs =>
      rw [shutdownRec_mk]
      by_cases hok : sh.isOK = true
      · rw [if_pos hok]
        exact hr
      · rw [if_neg hok]
        exact Bool.not_eq_true _ ▸ hok

theorem shutdown_unchanged_of_not_ok (s : AsyncWorkScheduler)
    (reason : Status) (htop : s.shutdownStatus.isOK = false)
    (hr : reason.isOK = false) :
    s.shutdown reason = some s := by
  cases s with
  | mk sh ops hs cs =>
      unfold AsyncWorkScheduler.shutdown
      rw [if_neg (by simp [hr])]
      rw [shutdownRec_mk]
      simp only [AsyncWorkScheduler.shutdownStatus] at htop
      rw [if_neg (by simp [htop])]

/-! ## Claim theorems about the scheduler -/

/-- C6: `scheduleRemoteCommand` dispatches through the in-process loopback
path, skipping host resolution, exactly when the destination shard id equals
this process's own shard identity (config-server sentinel for the config
role, the registered shard id for the shard role); any other shard id goes
through `_targetHostAsync` host resolution before the command is issued. -/
theorem local_shard_shortcut (role : ClusterRole)
    (registeredShardId shardId localShardId : ShardId)
    (hlocal : getLocalShardId role registeredShardId = some localShardId) :
    (shardId = localShardId →
      scheduleRemoteCommandPath role registeredShardId shardId = .loopback) ∧
    (shardId ≠ localShardId →
      scheduleRemoteCommandPath role registeredShardId shardId =
        .targeted shardId) := by
  unfold scheduleRemoteCommandPath
  rw [hlocal]
  constructor
  · intro h
    simp [h]
  · intro h
    simp [h]

/-- Witness for C6: a shard server registered as shard 3 loops back a
command for shard 3 and targets a host for shard 4. -/
theorem local_shard_shortcut_witness :
    scheduleRemoteCommandPath ClusterRole.shardServer 3 3 = .loopback ∧
    scheduleRemoteCommandPath ClusterRole.shardServer 3 4 = .targeted 4 :=
  ⟨(local_shard_shortcut ClusterRole.shardServer 3 3 3 rfl).1 rfl,
   (local_shard_shortcut ClusterRole.shardServer 3 4 3 rfl).2 (by decide)⟩

/-- C7: a remote command whose transport outcome is the generic
`CallbackCanceled` error resolves with the recorded shutdown reason when one
is set on the owning scheduler node, with the cancellation error itself when
none is set, and any other transport error is reported unchanged. -/
theorem cancel_reports_shutdown_reason (transportStatus : Status)
    (response : Nat) (shutdownStatus : Status) :
    (transportStatus = Status.error callbackCanceledCode →
      shutdownStatus.isOK = false →
      remoteCallbackResolve transportStatus response shutdownStatus =
        .error shutdownStatus) ∧
    (transportStatus = Status.error callbackCanceledCode →
      shutdownStatus.isOK = true →
      remoteCallbackResolve transportStatus response shutdownStatus =
        .error transportStatus) ∧
    (∀ e, transportStatus = Status.error e → e ≠ callbackCanceledCode →
      remoteCallbackResolve transportStatus response shutdownStatus =
        .error transportStatus) := by
  refine ⟨?_, ?_, ?_⟩
  · intro ht hsh
    subst ht
    simp [remoteCallbackResolve, Status.isOK_error, hsh]
  · intro ht hsh
    subst ht
    simp [remoteCallbackResolve, Status.isOK_error, hsh]
  · intro e ht hne
    subst ht
    simp [remoteCallbackResolve, Status.isOK_error, hne]

/-- Witness for C7: a canceled command under recorded shutdown reason 42 is
reported with error 42, not with the cancellation code. -/
theorem cancel_reports_shutdown_reason_witness :
    remoteCallbackResolve (Status.error callbackCanceledCode) 5
        (Status.error 42) = .error (Status.error 42) :=
  (cancel_reports_shutdown_reason (Status.error callbackCanceledCode) 5
    (Status.error 42)).1 rfl rfl

/-- C8: scheduler shutdown is idempotent with a sticky first reason — the
first `shutdown(reason)` on a node with no recorded reason records it, kills
every active operation context with the reason's code, cancels every
in-flight handle, and recursively shuts down every child with the same
reason; any later `shutdown` on that node (already shut down, or just shut
down by the first call) returns it unchanged. -/
theorem shutdown_idempotent_sticky (s : AsyncWorkScheduler)
    (reason reason' : Status)
    (hr : reason.isOK = false) (hr' : reason'.isOK = false) :
    (s.shutdownStatus.isOK = true → ∀ t, s.shutdown reason = some t →
      t.shutdownStatus = reason ∧
      (∀ o ∈ t.activeOpContexts, o.killedWith = some reason.code) ∧
      (∀ hdl ∈ t.activeHandles, hdl.cancelled = true) ∧
      t.childSchedulers =
        s.childSchedulers.map (fun ch => ch.shutdownRec reason)) ∧
    (s.shutdownStatus.isOK = false → s.shutdown reason' = some s) ∧
    (∀ t, s.shutdown reason = some t → t.shutdown reason' = some t) := by
  refine ⟨?_, ?_, ?_⟩
  · intro htop t ht
    unfold AsyncWorkScheduler.shutdown at ht
    rw [if_neg (by simp [hr])] at ht
    simp only [Option.some.injEq] at ht
    subst ht
    cases s with
    | mk sh ops hs cs =>
        simp only [AsyncWorkScheduler.shutdownStatus] at htop
        rw [shutdownRec_mk, if_pos htop]
        refine ⟨rfl, ?_, ?_, rfl⟩
        · intro o ho
          simp only [AsyncWorkScheduler.activeOpContexts, List.mem_map] at ho
          obtain ⟨o₀, _, rfl⟩ := ho
          rfl
        · intro hdl hh
          simp only [AsyncWorkScheduler.activeHandles, List.mem_map] at hh
          obtain ⟨h₀, _, rfl⟩ := hh
          rfl
  · intro htop
    exact shutdown_unchanged_of_not_ok s reason' htop hr'
  · intro t ht
    unfold AsyncWorkScheduler.shutdown at ht
    rw [if_neg (by simp [hr])] at ht
    simp only [Option.some.injEq] at ht
    subst ht
    exact shutdown_unchanged_of_not_ok _ reason'
      (shutdownRec_status_not_ok reason s hr) hr'

/-- Witness for C8: shutting a live node down with error 5 and then again
with error 6 leaves the first shutdown's state unchanged. -/
theorem shutdown_idempotent_sticky_witness :
    ((AsyncWorkScheduler.mk Status.ok [OpCtx.mk 1 none] [CmdHandle.mk 2 false]
        []).shutdownRec (Status.error 5)).shutdown (Status.error 6) =
      some ((AsyncWorkScheduler.mk Status.ok [OpCtx.mk 1 none]
        [CmdHandle.mk 2 false] []).shutdownRec (Status.error 5)) :=
  (shutdown_idempotent_sticky
    (AsyncWorkScheduler.mk Status.ok [OpCtx.mk 1 none] [CmdHandle.mk 2 false] [])
    (Status.error 5) (Status.error 6) rfl rfl).2.2 _ rfl

/-- C10: once a scheduler node records a shutdown reason, the post-targeting
step of the non-local `scheduleRemoteCommand` path fails the returned future
with that reason instead of submitting the command to the network executor
and tracking a new handle. -/
theorem no_schedule_after_shutdown (s : AsyncWorkScheduler)
    (newHandle : CmdHandle)
    (h : s.shutdownStatus.isOK = false) :
    postTargetingStep s newHandle = .error s.shutdownStatus := by
  unfold postTargetingStep
  rw [if_neg (by simp [h])]

/-- Witness for C10: a node shut down with error 9 rejects the
post-targeting step with error 9. -/
theorem no_schedule_after_shutdown_witness :
    postTargetingStep (AsyncWorkScheduler.mk (Status.error 9) [] [] [])
        (CmdHandle.mk 1 false) = .error (Status.error 9) :=
  no_schedule_after_shutdown
    (AsyncWorkScheduler.mk (Status.error 9) [] [] []) (CmdHandle.mk 1 false) rfl

end MongoTxn
